import Mathlib

/-!
Shallow embedding of the quiz / mock-test engine of the targetjee backend
(controllers `quiz.controller.js` and `auth.controller.js`):

* `createSeededRandom` / `shuffleArray` — the seeded linear congruential
  generator and the Fisher–Yates pass, including the exact JavaScript
  semantics of `%` on possibly negative numbers (truncated remainder,
  `Int.tmod`) and of reading / writing array indices that may fall outside
  the range `0 .. length-1` (modelled by a property store `ℤ → Option α`,
  where `none` is the JavaScript `undefined`).
* the scoring loop of `submitQuizAttempt` / `submitMockTestAttempt`,
* the quiz / mock-test lookup scoping of `getQuizById` / `getMockTestById`,
* `deleteQuiz` / `deleteMockTest`,
* the sanitised quiz-view assembly of `getQuizById`.
-/

namespace TargetJee

/-- JavaScript `ToInt32`: reduce an integer modulo `2^32` into the signed
range `[-2^31, 2^31)`.  This is what `x & x` and `<<` perform on numbers. -/
def toInt32 (n : ℤ) : ℤ :=
  let m := n % 4294967296
  if 2147483648 ≤ m then m - 4294967296 else m

/-- Seed hash of `createSeededRandom`: per character the code runs
`hash = ((hash << 5) - hash) + char; hash = hash & hash`, i.e. it takes the
32-bit wrap of `32 * hash`, subtracts `hash`, adds the UTF-16 code of the
character and truncates the sum back to a signed 32-bit integer. -/
def jsHash (s : String) : ℤ :=
  s.data.foldl (fun h c => toInt32 (toInt32 (32 * h) - h + (c.toNat : ℤ))) 0

/-- One step of the generator returned by `createSeededRandom`:
`hash = (hash * 9301 + 49297) % 233280`.  JavaScript `%` is the truncated
remainder (sign follows the dividend), which is `Int.tmod`. -/
def nextHash (h : ℤ) : ℤ :=
  Int.tmod (h * 9301 + 49297) 233280

/-- Value emitted for a given (already advanced) hash state:
`hash / 233280`, exact rational division standing for the JavaScript
float division. -/
def lcgValue (h : ℤ) : ℚ :=
  (h : ℚ) / 233280

/-- Hash state after `k` generator calls on a generator freshly created
from `seed`. -/
def hashAfter (seed : String) (k : ℕ) : ℤ :=
  nextHash^[k] (jsHash seed)

/-- Value returned by the `k`-th call (0-indexed) of the generator created
from `seed`: the state is advanced first, then the new hash is divided by
233280. -/
def genValue (seed : String) (k : ℕ) : ℚ :=
  lcgValue (hashAfter seed (k + 1))

variable {α : Type}

/-- Effect of the destructuring swap
`[a[i], a[j]] = [a[j], a[i]]` on the JavaScript property store of the
array: both reads happen before both writes.  Indices are unrestricted
integers, as in JavaScript, where an out-of-range index is an ordinary
object property and reads of absent properties give `undefined`
(modelled as `none`). -/
def jsSwap (f : ℤ → Option α) (i j : ℤ) : ℤ → Option α :=
  fun k => if k = i then f j else if k = j then f i else f k

/-- The swap index `Math.floor(random() * (i + 1))` computed from the value
emitted for hash state `h` at loop index `i` (`Math.floor`, not truncation,
hence `Int.floor`). -/
def swapIndex (h : ℤ) (i : ℕ) : ℤ :=
  ⌊lcgValue h * ((i : ℚ) + 1)⌋

/-- One iteration of the Fisher–Yates loop of `shuffleArray` at loop index
`i`: advance the generator, compute the swap index from the emitted value,
and swap positions `i` and `j`. -/
def shuffleStep (f : ℤ → Option α) (h : ℤ) (i : ℕ) : (ℤ → Option α) × ℤ :=
  let h2 := nextHash h
  (jsSwap f (i : ℤ) (swapIndex h2 i), h2)

/-- The loop `for (let i = length - 1; i > 0; i--)` of `shuffleArray`,
counting the loop variable down from its current value to 1. -/
def shuffleLoop : ℕ → (ℤ → Option α) → ℤ → ((ℤ → Option α) × ℤ)
  | 0, f, h => (f, h)
  | m + 1, f, h =>
    let p := shuffleStep f h (m + 1)
    shuffleLoop m p.1 p.2

/-- Property store of the freshly copied array `[...array]`: indices
`0 .. length-1` hold the elements, everything else is `undefined`. -/
def initStore (l : List α) : ℤ → Option α :=
  fun k => if 0 ≤ k then l.get? k.toNat else none

/-- The sequence of values an array property store presents at indices
`0 .. n-1`, which is what the final array `shuffled` denotes. -/
def window (n : ℕ) (f : ℤ → Option α) : List (Option α) :=
  (List.range n).map (fun (k : ℕ) => f (k : ℤ))

/-- The function `shuffleArray(array, random)`: run the Fisher–Yates loop
starting at `length - 1` on a copy of the array and return the resulting
array together with the generator state it leaves behind (the caller keeps
using the same generator). -/
def shuffleArray (l : List α) (h : ℤ) : List (Option α) × ℤ :=
  let p := shuffleLoop (l.length - 1) (initStore l) h
  (window l.length p.1, p.2)

/-- One complete run of `shuffleArray(l, createSeededRandom(seed))` on a
generator freshly created from `seed`. -/
def runShuffle (seed : String) (l : List α) : List (Option α) :=
  (shuffleArray l (jsHash seed)).1

/-! ### Entities

Rows of the `quizzes`, `quiz_questions` and `quiz_answers` tables with the
fields the controllers read. -/

/-- Row of `quiz_answers`. -/
structure QuizAnswerRow where
  id : ℤ
  answerText : String
  isCorrect : Bool
  explanation : Option String
deriving DecidableEq

/-- Row of `quiz_questions` together with its eagerly loaded answers. -/
structure QuizQuestionRow where
  id : ℤ
  questionText : String
  questionType : String
  points : ℤ
  position : ℤ
  explanation : Option String
  answers : List QuizAnswerRow
deriving DecidableEq

/-- Row of `quizzes` together with its eagerly loaded questions. -/
structure QuizRow where
  id : ℤ
  lessonId : Option ℤ
  title : String
  description : Option String
  passingScore : Option ℤ
  questions : List QuizQuestionRow
deriving DecidableEq

/-! ### Scoring loop of `submitQuizAttempt` / `submitMockTestAttempt` -/

/-- One element of the submitted `answers` array.  `questionId` is stored
after the `parseInt` the controller applies to it; a missing or selected
`answerId` is an `Option`, as is the free-text answer. -/
structure Submission where
  questionId : ℤ
  answerId : Option ℤ
  textAnswer : Option String
deriving DecidableEq

/-- Fields of the `UserQuizAnswer` row the loop creates per processed
submission. -/
structure UserAnswerRow where
  questionId : ℤ
  answerId : Option ℤ
  textAnswer : Option String
  isCorrect : Bool
  pointsEarned : ℤ
deriving DecidableEq

/-- JavaScript `x || null` on an optional number: `0`, like `null` and
`undefined`, is falsy and collapses to `null`. -/
def jsOrNullInt (v : Option ℤ) : Option ℤ :=
  match v with
  | some n => if n = 0 then none else some n
  | none => none

/-- JavaScript `x || null` on an optional string: the empty string is
falsy and collapses to `null`. -/
def jsOrNullStr (v : Option String) : Option String :=
  match v with
  | some s => if s = "" then none else some s
  | none => none

/-- JavaScript truthiness of an optional string (`undefined`, `null` and
`""` are falsy). -/
def jsTruthyStr (v : Option String) : Bool :=
  match v with
  | some s => s ≠ ""
  | none => false

/-- JavaScript `s.toLowerCase()` at the character level. -/
def jsToLower (s : String) : String :=
  String.mk (s.data.map Char.toLower)

/-- JavaScript `s.trim()`: strip leading and trailing whitespace. -/
def jsTrim (s : String) : String :=
  String.mk (((s.data.dropWhile Char.isWhitespace).reverse.dropWhile Char.isWhitespace).reverse)

/-- The normalisation `s.toLowerCase().trim()` both sides of the
fill-in-the-blank comparison go through. -/
def normText (s : String) : String :=
  jsTrim (jsToLower s)

/-- Correctness decision of the loop body for one submission that matched
question `q`:

* `fill_blank` — the submitted text is truthy and its lower-cased trimmed
  form appears among the lower-cased trimmed texts of the answers marked
  correct;
* otherwise — the answer whose id equals `parseInt(answerId)` exists and
  has `isCorrect` set (a missing `answerId` parses to `NaN`, which matches
  no answer id). -/
def scoreSubmission (q : QuizQuestionRow) (sub : Submission) : Bool :=
  if q.questionType = "fill_blank" then
    match sub.textAnswer with
    | none => false
    | some t =>
      decide (t ≠ "" ∧ normText t ∈ (q.answers.filter (·.isCorrect)).map (fun a => normText a.answerText))
  else
    match sub.answerId with
    | none => false
    | some aid =>
      match q.answers.find? (fun a => decide (a.id = aid)) with
      | some a => a.isCorrect
      | none => false

/-- The `UserQuizAnswer` row the loop creates for a submission that matched
question `q`: `answerId: answerId || null`, `textAnswer: textAnswer || null`,
and `pointsEarned` is the question's point value when correct, else 0. -/
def gradeRecord (q : QuizQuestionRow) (sub : Submission) : UserAnswerRow :=
  { questionId := sub.questionId
    answerId := jsOrNullInt sub.answerId
    textAnswer := jsOrNullStr sub.textAnswer
    isCorrect := scoreSubmission q sub
    pointsEarned := if scoreSubmission q sub then q.points else 0 }

/-- The `for (const answer of answers)` scoring loop: a submission whose
`questionId` matches no quiz question is skipped (`continue`); a matching
one adds the question's points to `maxScore`, its earned points to
`totalScore`, and appends one `UserQuizAnswer` row.  Returns
(created rows in order, totalScore, maxScore). -/
def processAnswers (qs : List QuizQuestionRow) : List Submission → List UserAnswerRow × ℤ × ℤ
  | [] => ([], 0, 0)
  | sub :: rest =>
    match qs.find? (fun q => decide (q.id = sub.questionId)) with
    | none => processAnswers qs rest
    | some q =>
      let r := processAnswers qs rest
      (gradeRecord q sub :: r.1,
       (if scoreSubmission q sub then q.points else 0) + r.2.1,
       q.points + r.2.2)

/-- The percentage computation
`maxScore > 0 ? (totalScore / maxScore) * 100 : 0`. -/
def percentageScore (total maxS : ℤ) : ℚ :=
  if 0 < maxS then ((total : ℚ) / (maxS : ℚ)) * 100 else 0

/-- The pass decision `quiz.passingScore ? percentageScore >= quiz.passingScore : true`.
A `passingScore` of 0 is falsy in JavaScript and therefore also yields
`true`. -/
def jsPassed (passingScore : Option ℤ) (pct : ℚ) : Bool :=
  match passingScore with
  | some p => if p = 0 then true else decide ((p : ℚ) ≤ pct)
  | none => true

/-- Modelled from the wording of the specification, for comparison with
`jsPassed`: passed is `percentageScore ≥ passingScore` when the passing
score is set, and always `true` when it is absent. -/
def specPassed (passingScore : Option ℤ) (pct : ℚ) : Bool :=
  match passingScore with
  | some p => decide ((p : ℚ) ≤ pct)
  | none => true

/-- Modelled from the wording of the specification, for comparison with
`percentageScore`: `100 × totalScore / maxScore` when `maxScore > 0`,
else 0. -/
def specPercentage (total maxS : ℤ) : ℚ :=
  if 0 < maxS then 100 * (total : ℚ) / (maxS : ℚ) else 0

/-! ### Lookup scoping of `getQuizById` / `getMockTestById` (C7) -/

/-- The lookup `Quiz.findByPk(id)` used by `getQuizById`: no condition on
`lessonId` whatsoever. -/
def findQuizByPk (db : List QuizRow) (id : ℤ) : Option QuizRow :=
  db.find? (fun q => decide (q.id = id))

/-- The lookup `Quiz.findOne({ where: { id, lessonId: null } })` used by
`getMockTestById`, `deleteMockTest` and `submitMockTestAttempt`. -/
def findMockTest (db : List QuizRow) (id : ℤ) : Option QuizRow :=
  db.find? (fun q => decide (q.id = id ∧ q.lessonId = none))

/-! ### `deleteQuiz` / `deleteMockTest` (C8) -/

/-- Row of `quiz_questions` as seen by the delete path (only keys). -/
structure QuestionKey where
  id : ℤ
  quizId : ℤ
deriving DecidableEq

/-- Row of `quiz_answers` as seen by the delete path (only keys). -/
structure AnswerKey where
  id : ℤ
  questionId : ℤ
deriving DecidableEq

/-- Row of `quiz_attempts` as seen by the delete path (only keys). -/
structure AttemptKey where
  id : ℤ
  quizId : ℤ
deriving DecidableEq

/-- The relational store as the delete path touches it. -/
structure Store where
  quizzes : List QuizRow
  questions : List QuestionKey
  answers : List AnswerKey
  attempts : List AttemptKey
deriving DecidableEq

/-- Outcome of `deleteQuiz`: 404, the 400 "Cannot delete quiz with existing
attempts" conflict, or success. -/
inductive DeleteResult where
  | notFound
  | conflict
  | deleted
deriving DecidableEq

/-- The `deleteQuiz` controller: find the quiz (404 if absent), count
attempts referencing it (400 conflict if any, with the transaction rolled
back and nothing changed), otherwise delete the answers of each of its
questions, then its questions, then the quiz, in one transaction. -/
def deleteQuiz (st : Store) (id : ℤ) : DeleteResult × Store :=
  match st.quizzes.find? (fun q => decide (q.id = id)) with
  | none => (DeleteResult.notFound, st)
  | some _ =>
    let attemptCount := (st.attempts.filter (fun a => decide (a.quizId = id))).length
    if 0 < attemptCount then
      (DeleteResult.conflict, st)
    else
      let qs := st.questions.filter (fun q => decide (q.quizId = id))
      let answers1 := qs.foldl (fun acc q => acc.filter (fun a => decide (¬ a.questionId = q.id))) st.answers
      (DeleteResult.deleted,
       { quizzes := st.quizzes.filter (fun q => decide (¬ q.id = id))
         questions := st.questions.filter (fun q => decide (¬ q.quizId = id))
         answers := answers1
         attempts := st.attempts })

/-! ### Sanitised quiz-view assembly of `getQuizById` / `getMockTestById` (C9)

The load selects `attributes: ['id', 'questionText', 'questionType',
'points', 'position']` for questions and `attributes: ['id', 'answerText']`
for answers, ordered by question `position` and answer `id`, so the
in-memory rows the rest of the handler works on never carry `isCorrect`
or `explanation`. -/

/-- Answer as loaded for presentation: only `id` and `answerText`. -/
structure AnswerView where
  id : ℤ
  answerText : String
deriving DecidableEq

/-- Question as loaded for presentation: no `explanation` attribute. -/
structure QuestionView where
  id : ℤ
  questionText : String
  questionType : String
  points : ℤ
  position : ℤ
  answers : List AnswerView
deriving DecidableEq

/-- Question as it appears in the response once randomisation may have run
over it: its answer slots are array slots, which can hold `undefined`
after a corrupted shuffle. -/
structure RespQuestion where
  id : ℤ
  questionText : String
  questionType : String
  points : ℤ
  position : ℤ
  answers : List (Option AnswerView)
deriving DecidableEq

/-- Projection performed by the answer `attributes` list of the query. -/
def sanitizeAnswer (a : QuizAnswerRow) : AnswerView :=
  { id := a.id, answerText := a.answerText }

/-- Projection performed by the question `attributes` list of the query,
with the answers ordered by `id` ascending as in the query's `order`. -/
def sanitizeQuestion (q : QuizQuestionRow) : QuestionView :=
  { id := q.id
    questionText := q.questionText
    questionType := q.questionType
    points := q.points
    position := q.position
    answers := List.insertionSort (fun a b => a.id ≤ b.id) (q.answers.map sanitizeAnswer) }

/-- Questions of a quiz as the handler receives them from the query:
projected to their presentation attributes and ordered by `position`
ascending. -/
def loadQuestions (quiz : QuizRow) : List QuestionView :=
  List.insertionSort (fun a b => a.position ≤ b.position) (quiz.questions.map sanitizeQuestion)

/-- JavaScript `x || d` on an optional string default (empty string is
falsy). -/
def jsOrStr (v : Option String) (d : String) : String :=
  match v with
  | some s => if s = "" then d else s
  | none => d

/-- The seed string `` `${userId}-${id}-${userSeed || 'default'}` `` where
`userId` is `req.userId || req.ip || 'anonymous'`. -/
def buildSeed (userId ip userSeed : Option String) (idStr : String) : String :=
  jsOrStr userId (jsOrStr ip "anonymous") ++ "-" ++ idStr ++ "-" ++ jsOrStr userSeed "default"

/-- Lift a clean question into a response question (its answers are all
present). -/
def plainResp (q : QuestionView) : RespQuestion :=
  { id := q.id
    questionText := q.questionText
    questionType := q.questionType
    points := q.points
    position := q.position
    answers := q.answers.map some }

/-- The `questionCount` truncation:
`if (questionCount && parseInt(questionCount) > 0) slice(0, min(count, length))`. -/
def truncateQuestions (questionCount : Option ℤ) (l : List (Option QuestionView)) :
    List (Option QuestionView) :=
  match questionCount with
  | some c => if 0 < c then l.take (min c.toNat l.length) else l
  | none => l

/-- The `shuffleAnswers === 'true'` pass: map over the question slots in
order, threading the one generator state through each per-question answer
shuffle.  A slot holding `undefined` makes the arrow body throw a
`TypeError` (reading `.answers` of `undefined`), modelled as `none`;
questions with an empty answer list are passed through unshuffled. -/
def shuffleAnswersPass (l : List (Option QuestionView)) (h : ℤ) :
    Option (List RespQuestion × ℤ) :=
  l.foldl
    (fun acc slot =>
      match acc with
      | none => none
      | some (done, hs) =>
        match slot with
        | none => none
        | some q =>
          if 0 < q.answers.length then
            let p := shuffleArray q.answers hs
            some (done ++ [{ id := q.id, questionText := q.questionText,
                             questionType := q.questionType, points := q.points,
                             position := q.position, answers := p.1 }], p.2)
          else
            some (done ++ [plainResp q], hs))
    (some ([], h))

/-- The final `questions.map((question, index) => ({ ...question, position: index }))`
pass.  When the answers were not shuffled the slots may still hold
`undefined`, on which `question.toJSON` access throws (modelled as `none`
for the whole request). -/
def repositionClean (l : List (Option QuestionView)) : Option (List RespQuestion) :=
  (l.mapM (fun slot => Option.map plainResp slot)).map
    (fun qs => qs.enum.map (fun p => { p.2 with position := (p.1 : ℤ) }))

/-- Reposition after the answer-shuffling pass (slots already proven
present). -/
def repositionResp (qs : List RespQuestion) : List RespQuestion :=
  qs.enum.map (fun p => { p.2 with position := (p.1 : ℤ) })

/-- The whole randomisation branch of the handler, acting on the loaded
question views: shuffle the questions, truncate, optionally shuffle each
question's answers with the same generator, and rewrite positions to the
new indices.  `none` models the handler throwing (500) on an `undefined`
array slot produced by a corrupted shuffle. -/
def randomizePipeline (qs : List QuestionView) (h0 : ℤ) (questionCount : Option ℤ)
    (shuffleAnswers : Bool) : Option (List RespQuestion) :=
  let p := shuffleArray qs h0
  let l1 := truncateQuestions questionCount p.1
  if shuffleAnswers then
    (shuffleAnswersPass l1 p.2).map (fun r => repositionResp r.1)
  else
    repositionClean l1

/-- Response body of `getQuizById` (data part): quiz fields, the possibly
randomised questions, and the metadata block. -/
structure AssembledView where
  quizId : ℤ
  lessonId : Option ℤ
  title : String
  description : Option String
  passingScore : Option ℤ
  questions : List RespQuestion
  totalAvailableQuestions : ℕ
  returnedQuestions : ℕ
  randomized : Bool
  answersShuffled : Bool
  seed : Option String
deriving DecidableEq

/-- The `getQuizById` handler after a successful load, as a function of the
loaded quiz and the request parameters.  `none` models the 500 path (a
throw inside the randomisation maps). -/
def assembleQuiz (quiz : QuizRow) (userId ip userSeed : Option String) (idStr : String)
    (randomize : Bool) (questionCount : Option ℤ) (shuffleAnswers : Bool) :
    Option AssembledView :=
  let qs := loadQuestions quiz
  let seed := buildSeed userId ip userSeed idStr
  if randomize ∧ 0 < qs.length then
    (randomizePipeline qs (jsHash seed) questionCount shuffleAnswers).map
      (fun rqs =>
        { quizId := quiz.id, lessonId := quiz.lessonId, title := quiz.title,
          description := quiz.description, passingScore := quiz.passingScore,
          questions := rqs,
          totalAvailableQuestions := qs.length, returnedQuestions := rqs.length,
          randomized := randomize, answersShuffled := shuffleAnswers,
          seed := if randomize then some seed else none })
  else
    some
      { quizId := quiz.id, lessonId := quiz.lessonId, title := quiz.title,
        description := quiz.description, passingScore := quiz.passingScore,
        questions := qs.map plainResp,
        totalAvailableQuestions := qs.length, returnedQuestions := qs.length,
        randomized := randomize, answersShuffled := shuffleAnswers,
        seed := if randomize then some seed else none }

/-- Agreement of two answer rows on everything the presentation view can
depend on: `isCorrect` and `explanation` are unconstrained. -/
def AgreeAnswer (a b : QuizAnswerRow) : Prop :=
  a.id = b.id ∧ a.answerText = b.answerText

/-- Agreement of two question rows on everything the presentation view can
depend on: `explanation` is unconstrained and the answers agree pointwise
up to `AgreeAnswer`. -/
def AgreeQuestion (p q : QuizQuestionRow) : Prop :=
  p.id = q.id ∧ p.questionText = q.questionText ∧ p.questionType = q.questionType ∧
    p.points = q.points ∧ p.position = q.position ∧ List.Forall₂ AgreeAnswer p.answers q.answers

/-- Agreement of two quiz rows on everything the presentation view can
depend on: they may differ in their answers' correctness flags and in
their questions' and answers' explanations. -/
def AgreeQuiz (p q : QuizRow) : Prop :=
  p.id = q.id ∧ p.lessonId = q.lessonId ∧ p.title = q.title ∧
    p.description = q.description ∧ p.passingScore = q.passingScore ∧
    List.Forall₂ AgreeQuestion p.questions q.questions

/-! ### Concrete instances used by witnesses and counterexamples -/

/-- Scenario A quiz question: `single_choice`, 4 points, answer 10 correct. -/
def exChoiceQuestion : QuizQuestionRow :=
  { id := 1, questionText := "q1", questionType := "single_choice", points := 4,
    position := 0, explanation := none,
    answers := [{ id := 10, answerText := "right", isCorrect := true, explanation := none },
                { id := 11, answerText := "wrong", isCorrect := false, explanation := none }] }

/-- Scenario C fill-in-the-blank question with stored correct answers
`"Paris"` and `"paris "`. -/
def exFillQuestion : QuizQuestionRow :=
  { id := 2, questionText := "capital", questionType := "fill_blank", points := 1,
    position := 1, explanation := none,
    answers := [{ id := 20, answerText := "Paris", isCorrect := true, explanation := none },
                { id := 21, answerText := "paris ", isCorrect := true, explanation := none }] }

/-- Submission of Scenario C: free text `" PARIS "`. -/
def exFillSubmission : Submission :=
  { questionId := 2, answerId := none, textAnswer := some " PARIS " }

/-- Fill-in-the-blank question whose only correct answer trims to the empty
string. -/
def cexBlankQuestion : QuizQuestionRow :=
  { id := 3, questionText := "blank", questionType := "fill_blank", points := 1,
    position := 0, explanation := none,
    answers := [{ id := 30, answerText := " ", isCorrect := true, explanation := none }] }

/-- Submission of the empty string against `cexBlankQuestion`. -/
def cexBlankSubmission : Submission :=
  { questionId := 3, answerId := none, textAnswer := some "" }

/-- A standalone mock test (`lessonId` null). -/
def exMockQuiz : QuizRow :=
  { id := 1, lessonId := none, title := "mock", description := none,
    passingScore := none, questions := [] }

/-- A lesson-bound quiz. -/
def exLessonQuiz : QuizRow :=
  { id := 2, lessonId := some 7, title := "lesson quiz", description := none,
    passingScore := some 50, questions := [] }

/-- Store holding one quiz with one question, one answer and one attempt
referencing the quiz. -/
def exStoreWithAttempt : Store :=
  { quizzes := [exMockQuiz]
    questions := [{ id := 4, quizId := 1 }]
    answers := [{ id := 40, questionId := 4 }]
    attempts := [{ id := 100, quizId := 1 }] }

/-- Store holding one quiz with one question and one answer and no
attempts. -/
def exStoreNoAttempt : Store :=
  { quizzes := [exMockQuiz]
    questions := [{ id := 4, quizId := 1 }]
    answers := [{ id := 40, questionId := 4 }]
    attempts := [] }

/-- Quiz with a correct flag set and explanations present. -/
def exSecretQuizA : QuizRow :=
  { id := 9, lessonId := none, title := "view", description := some "d",
    passingScore := some 60,
    questions := [{ id := 5, questionText := "pick", questionType := "single_choice",
                    points := 2, position := 0, explanation := some "because",
                    answers := [{ id := 50, answerText := "yes", isCorrect := true,
                                  explanation := some "why" },
                                { id := 51, answerText := "no", isCorrect := false,
                                  explanation := none }] }] }

/-- The same quiz with all correctness flags flipped and explanations
removed. -/
def exSecretQuizB : QuizRow :=
  { id := 9, lessonId := none, title := "view", description := some "d",
    passingScore := some 60,
    questions := [{ id := 5, questionText := "pick", questionType := "single_choice",
                    points := 2, position := 0, explanation := none,
                    answers := [{ id := 50, answerText := "yes", isCorrect := false,
                                  explanation := none },
                                { id := 51, answerText := "no", isCorrect := true,
                                  explanation := some "hidden" }] }] }

end TargetJee

namespace TargetJee

/-! ### Scoring loop: shape of the results (C1, C2, C10, C6) -/

/-- Auxiliary characterisation of the scoring loop: the created rows are
exactly one `gradeRecord` per submission whose `questionId` resolves, and
both scores are sums over the resolved submissions. -/
theorem processAnswers_spec (qs : List QuizQuestionRow) (subs : List Submission) :
    (processAnswers qs subs).1 =
      subs.filterMap (fun sub =>
        (qs.find? (fun q => decide (q.id = sub.questionId))).map (fun q => gradeRecord q sub)) ∧
    (processAnswers qs subs).2.2 =
      (subs.filterMap (fun sub =>
        (qs.find? (fun q => decide (q.id = sub.questionId))).map (fun q => q.points))).sum ∧
    (processAnswers qs subs).2.1 =
      (subs.filterMap (fun sub =>
        (qs.find? (fun q => decide (q.id = sub.questionId))).map
          (fun q => if scoreSubmission q sub then q.points else 0))).sum := by
  induction subs with
  | nil => simp [processAnswers]
  | cons sub rest ih =>
    obtain ⟨ih1, ih2, ih3⟩ := ih
    cases hfind : qs.find? (fun q => decide (q.id = sub.questionId)) with
    | none => simp [processAnswers, hfind, ih1, ih2, ih3]
    | some q => simp [processAnswers, hfind, ih1, ih2, ih3]

/-- C1: a submitted answer whose `questionId` matches no question of the
quiz is skipped entirely — it creates no `UserQuizAnswer` row and
contributes to neither score — while every matching submission contributes
its question's points to `maxScore` and yields exactly one row. -/
theorem claim1_unmatched_skipped_matched_scored (qs : List QuizQuestionRow)
    (subs : List Submission) :
    (processAnswers qs subs).1 =
      subs.filterMap (fun sub =>
        (qs.find? (fun q => decide (q.id = sub.questionId))).map (fun q => gradeRecord q sub)) ∧
    (processAnswers qs subs).2.2 =
      (subs.filterMap (fun sub =>
        (qs.find? (fun q => decide (q.id = sub.questionId))).map (fun q => q.points))).sum ∧
    (processAnswers qs subs).2.1 =
      (subs.filterMap (fun sub =>
        (qs.find? (fun q => decide (q.id = sub.questionId))).map
          (fun q => if scoreSubmission q sub then q.points else 0))).sum :=
  processAnswers_spec qs subs

/-- Auxiliary bounds on the accumulated scores: with nonnegative point
values, `0 ≤ totalScore ≤ maxScore`. -/
theorem processAnswers_bounds (qs : List QuizQuestionRow) (subs : List Submission)
    (hpts : ∀ q ∈ qs, 0 ≤ q.points) :
    0 ≤ (processAnswers qs subs).2.1 ∧
      (processAnswers qs subs).2.1 ≤ (processAnswers qs subs).2.2 := by
  induction subs with
  | nil => simp [processAnswers]
  | cons sub rest ih =>
    obtain ⟨ih1, ih2⟩ := ih
    cases hfind : qs.find? (fun q => decide (q.id = sub.questionId)) with
    | none => simpa [processAnswers, hfind] using ⟨ih1, ih2⟩
    | some q =>
      have hq : q ∈ qs := List.mem_of_find?_eq_some hfind
      have hp := hpts q hq
      by_cases hc : scoreSubmission q sub <;>
        simp [processAnswers, hfind, hc] <;> constructor <;> linarith

/-- Auxiliary: the computed percentage always lies in `[0, 100]` when
`0 ≤ total ≤ maxS`. -/
theorem percentageScore_bounds (total maxS : ℤ) (h0 : 0 ≤ total) (h1 : total ≤ maxS) :
    0 ≤ percentageScore total maxS ∧ percentageScore total maxS ≤ 100 := by
  unfold percentageScore
  by_cases hm : 0 < maxS
  · rw [if_pos hm]
    have hmq : (0 : ℚ) < (maxS : ℚ) := by exact_mod_cast hm
    have h0q : (0 : ℚ) ≤ (total : ℚ) := by exact_mod_cast h0
    have h1q : (total : ℚ) ≤ (maxS : ℚ) := by exact_mod_cast h1
    constructor
    · positivity
    · have : (total : ℚ) / (maxS : ℚ) ≤ 1 := (div_le_one hmq).2 h1q
      nlinarith
  · rw [if_neg hm]
    norm_num

/-- C10: for every submission list (duplicates included) over questions
with nonnegative point values, `0 ≤ totalScore ≤ maxScore`, and the
resulting `percentageScore` lies in `[0, 100]`. -/
theorem claim10_scores_bounded (qs : List QuizQuestionRow) (subs : List Submission)
    (hpts : ∀ q ∈ qs, 0 ≤ q.points) :
    0 ≤ (processAnswers qs subs).2.1 ∧
      (processAnswers qs subs).2.1 ≤ (processAnswers qs subs).2.2 ∧
      0 ≤ percentageScore (processAnswers qs subs).2.1 (processAnswers qs subs).2.2 ∧
      percentageScore (processAnswers qs subs).2.1 (processAnswers qs subs).2.2 ≤ 100 := by
  obtain ⟨h0, h1⟩ := processAnswers_bounds qs subs hpts
  obtain ⟨h2, h3⟩ := percentageScore_bounds _ _ h0 h1
  exact ⟨h0, h1, h2, h3⟩

/-- C10 witness: a duplicate pair of submissions for the 4-point question,
one correct and one incorrect, keeps the scores within bounds. -/
theorem claim10_scores_bounded_witness :
    0 ≤ (processAnswers [exChoiceQuestion]
          [⟨1, some 10, none⟩, ⟨1, some 11, none⟩]).2.1 ∧
      (processAnswers [exChoiceQuestion]
          [⟨1, some 10, none⟩, ⟨1, some 11, none⟩]).2.1 ≤
        (processAnswers [exChoiceQuestion]
          [⟨1, some 10, none⟩, ⟨1, some 11, none⟩]).2.2 ∧
      0 ≤ percentageScore (processAnswers [exChoiceQuestion]
            [⟨1, some 10, none⟩, ⟨1, some 11, none⟩]).2.1
          (processAnswers [exChoiceQuestion]
            [⟨1, some 10, none⟩, ⟨1, some 11, none⟩]).2.2 ∧
      percentageScore (processAnswers [exChoiceQuestion]
            [⟨1, some 10, none⟩, ⟨1, some 11, none⟩]).2.1
          (processAnswers [exChoiceQuestion]
            [⟨1, some 10, none⟩, ⟨1, some 11, none⟩]).2.2 ≤ 100 :=
  claim10_scores_bounded [exChoiceQuestion] [⟨1, some 10, none⟩, ⟨1, some 11, none⟩]
    (by decide)

/-- C2: on every scored attempt the percentage equals
`100 × totalScore / maxScore` for positive `maxScore` and 0 otherwise, and
the code's pass decision agrees with the specification's
(`percentageScore ≥ passingScore` when set, else `true`); the JavaScript
falsiness of a passing score of 0 is harmless because the percentage is
never negative. -/
theorem claim2_percentage_and_passed (qs : List QuizQuestionRow) (subs : List Submission)
    (ps : Option ℤ) (hpts : ∀ q ∈ qs, 0 ≤ q.points) :
    percentageScore (processAnswers qs subs).2.1 (processAnswers qs subs).2.2 =
      specPercentage (processAnswers qs subs).2.1 (processAnswers qs subs).2.2 ∧
    jsPassed ps (percentageScore (processAnswers qs subs).2.1 (processAnswers qs subs).2.2) =
      specPassed ps
        (percentageScore (processAnswers qs subs).2.1 (processAnswers qs subs).2.2) := by
  obtain ⟨h0, h1⟩ := processAnswers_bounds qs subs hpts
  obtain ⟨hp0, _⟩ := percentageScore_bounds _ _ h0 h1
  constructor
  · unfold percentageScore specPercentage
    by_cases hm : 0 < (processAnswers qs subs).2.2
    · rw [if_pos hm, if_pos hm]; ring
    · rw [if_neg hm, if_neg hm]
  · cases ps with
    | none => rfl
    | some p =>
      by_cases hp : p = 0
      · subst hp
        simp [jsPassed, specPassed]
        exact_mod_cast hp0
      · simp [jsPassed, specPassed, hp]

/-- C2 witness: Scenario A, answer 10 selected on the 4-point question
with a passing score of 50. -/
theorem claim2_percentage_and_passed_witness :
    percentageScore (processAnswers [exChoiceQuestion] [⟨1, some 10, none⟩]).2.1
        (processAnswers [exChoiceQuestion] [⟨1, some 10, none⟩]).2.2 =
      specPercentage (processAnswers [exChoiceQuestion] [⟨1, some 10, none⟩]).2.1
        (processAnswers [exChoiceQuestion] [⟨1, some 10, none⟩]).2.2 ∧
    jsPassed (some 50)
        (percentageScore (processAnswers [exChoiceQuestion] [⟨1, some 10, none⟩]).2.1
          (processAnswers [exChoiceQuestion] [⟨1, some 10, none⟩]).2.2) =
      specPassed (some 50)
        (percentageScore (processAnswers [exChoiceQuestion] [⟨1, some 10, none⟩]).2.1
          (processAnswers [exChoiceQuestion] [⟨1, some 10, none⟩]).2.2) :=
  claim2_percentage_and_passed [exChoiceQuestion] [⟨1, some 10, none⟩] (some 50) (by decide)

/-! ### Fill-in-the-blank grading (C6) -/

/-- C6 counterexample: the claim as stated fails for an empty submitted
string.  The stored correct answer `" "` and the submission `""` have equal
lower-cased trimmed forms, yet the code grades the submission incorrect,
because an empty `textAnswer` is falsy. -/
theorem claim6_counterexample_empty_text :
    scoreSubmission cexBlankQuestion cexBlankSubmission = false ∧
      normText " " = normText "" := by
  constructor <;> rfl

/-- C6 amended: a `fill_blank` submission is graded correct exactly when a
truthy (non-empty) free text was submitted and its lower-cased trimmed form
equals the lower-cased trimmed text of at least one answer marked
correct. -/
theorem claim6_fill_blank_normalized (q : QuizQuestionRow) (sub : Submission)
    (hq : q.questionType = "fill_blank") :
    scoreSubmission q sub = true ↔
      ∃ t, sub.textAnswer = some t ∧ t ≠ "" ∧
        normText t ∈ (q.answers.filter (·.isCorrect)).map (fun a => normText a.answerText) := by
  unfold scoreSubmission
  rw [if_pos hq]
  cases ht : sub.textAnswer with
  | none => simp
  | some t => simp

/-- C6 witness: Scenario C — submitting `" PARIS "` against stored correct
answers `"Paris"` and `"paris "` is graded correct. -/
theorem claim6_fill_blank_normalized_witness :
    scoreSubmission exFillQuestion exFillSubmission = true :=
  (claim6_fill_blank_normalized exFillQuestion exFillSubmission rfl).2
    ⟨" PARIS ", rfl, by decide, by decide⟩

/-! ### Determinism of the seeded shuffle (C3) -/

/-- C3: two runs of the shuffle on generators freshly created from the same
seed string produce identical outputs — the embedding has no hidden input
(wall clock or unseeded entropy) the result could depend on. -/
theorem claim3_shuffle_deterministic {α : Type} (seed : String) (l : List α)
    (r₁ r₂ : List (Option α)) (h₁ : r₁ = runShuffle seed l) (h₂ : r₂ = runShuffle seed l) :
    r₁ = r₂ :=
  h₁.trans h₂.symm

/-- C3 witness: two concrete runs from seed `"a"` coincide. -/
theorem claim3_shuffle_deterministic_witness :
    runShuffle "a" ([0, 1, 2] : List ℤ) = runShuffle "a" ([0, 1, 2] : List ℤ) :=
  claim3_shuffle_deterministic "a" [0, 1, 2] _ _ rfl rfl

/-! ### Lookup scoping (C7) -/

/-- C7 counterexample: `getQuizById` uses `Quiz.findByPk(id)` with no
lesson condition, so looking up a standalone mock test through the
lesson-quiz endpoint succeeds instead of returning NotFound. -/
theorem claim7_counterexample_quiz_lookup_finds_mock :
    findQuizByPk [exMockQuiz] 1 = some exMockQuiz := rfl

/-- C7 amended: the mock-test-only lookup of an identifier that belongs
only to lesson-bound quizzes returns NotFound; the plain quiz lookup, by
contrast, applies no lesson scoping at all. -/
theorem claim7_mock_lookup_notfound (db : List QuizRow) (id : ℤ)
    (h : ∀ q ∈ db, q.id = id → q.lessonId ≠ none) :
    findMockTest db id = none := by
  unfold findMockTest
  rw [List.find?_eq_none]
  intro q hq
  simp only [decide_eq_true_eq]
  intro ⟨h1, h2⟩
  exact h q hq h1 h2

/-- C7 witness: the mock-test lookup of the lesson-bound quiz with id 2
returns NotFound. -/
theorem claim7_mock_lookup_notfound_witness :
    findMockTest [exLessonQuiz] 2 = none :=
  claim7_mock_lookup_notfound [exLessonQuiz] 2 (by decide)

/-! ### Deletion guard and cascade (C8) -/

/-- Auxiliary: membership after the per-question answer deletion loop of
`deleteQuiz` — an answer row survives exactly when it was there before and
belongs to none of the listed questions. -/
theorem mem_foldl_filter_answers (qs : List QuestionKey) :
    ∀ (init : List AnswerKey) (a : AnswerKey),
      a ∈ qs.foldl (fun acc q => acc.filter (fun x => decide (¬ x.questionId = q.id))) init ↔
        a ∈ init ∧ ∀ q ∈ qs, a.questionId ≠ q.id := by
  induction qs with
  | nil => intro init a; simp
  | cons q rest ih =>
    intro init a
    rw [List.foldl_cons, ih]
    simp only [List.mem_filter, decide_eq_true_eq, List.mem_cons]
    constructor
    · rintro ⟨⟨ha, hne⟩, hall⟩
      refine ⟨ha, ?_⟩
      rintro q2 (rfl | hq2)
      · exact hne
      · exact hall q2 hq2
    · rintro ⟨ha, hall⟩
      exact ⟨⟨ha, hall q (Or.inl rfl)⟩, fun q2 hq2 => hall q2 (Or.inr hq2)⟩

/-- C8: deleting a quiz that some attempt references yields the conflict
outcome and leaves the store unchanged; deleting a quiz with no attempts
succeeds and afterwards no row of the quiz, none of its questions and none
of their answers remain. -/
theorem claim8_delete_guard_and_cascade (st : Store) (id : ℤ) (q : QuizRow)
    (hfind : st.quizzes.find? (fun q2 => decide (q2.id = id)) = some q) :
    ((∃ a ∈ st.attempts, a.quizId = id) → deleteQuiz st id = (DeleteResult.conflict, st)) ∧
    ((∀ a ∈ st.attempts, a.quizId ≠ id) →
      (deleteQuiz st id).1 = DeleteResult.deleted ∧
        (∀ q2 ∈ (deleteQuiz st id).2.quizzes, q2.id ≠ id) ∧
        (∀ qk ∈ (deleteQuiz st id).2.questions, qk.quizId ≠ id) ∧
        (∀ ak ∈ (deleteQuiz st id).2.answers, ∀ qk ∈ st.questions,
          qk.quizId = id → ak.questionId ≠ qk.id)) := by
  constructor
  · rintro ⟨a, ha, haq⟩
    have hpos : 0 < (st.attempts.filter (fun a2 => decide (a2.quizId = id))).length := by
      apply List.length_pos.2
      intro hnil
      have : a ∈ st.attempts.filter (fun a2 => decide (a2.quizId = id)) :=
        List.mem_filter.2 ⟨ha, by simpa using haq⟩
      rw [hnil] at this
      exact absurd this (List.not_mem_nil a)
    unfold deleteQuiz
    rw [hfind]
    simp only [hpos, if_pos]
  · intro hnone
    have hzero : ¬ 0 < (st.attempts.filter (fun a2 => decide (a2.quizId = id))).length := by
      simp only [not_lt, Nat.le_zero, List.length_eq_zero, List.filter_eq_nil_iff]
      intro a ha
      simpa using hnone a ha
    unfold deleteQuiz
    rw [hfind]
    simp only [hzero, if_neg, if_false]
    refine ⟨trivial, ?_, ?_, ?_⟩
    · intro q2 hq2
      have := (List.mem_filter.1 hq2).2
      simpa using this
    · intro qk hqk
      have := (List.mem_filter.1 hqk).2
      simpa using this
    · intro ak hak qk hqk hqkid
      have hmem := (mem_foldl_filter_answers _ _ _).1 hak
      exact hmem.2 qk (List.mem_filter.2 ⟨hqk, by simpa using hqkid⟩)

/-- C8 witness: the store with one attempt yields the conflict unchanged,
and the store without attempts is fully cascaded. -/
theorem claim8_delete_guard_and_cascade_witness :
    deleteQuiz exStoreWithAttempt 1 = (DeleteResult.conflict, exStoreWithAttempt) ∧
      (deleteQuiz exStoreNoAttempt 1).1 = DeleteResult.deleted :=
  ⟨(claim8_delete_guard_and_cascade exStoreWithAttempt 1 exMockQuiz rfl).1
      ⟨{ id := 100, quizId := 1 }, by decide, rfl⟩,
   ((claim8_delete_guard_and_cascade exStoreNoAttempt 1 exMockQuiz rfl).2
      (by decide)).1⟩

/-! ### Range of the generator (C5) -/

/-- Truncated remainder by a positive modulus is strictly greater than the
negated modulus (the sign of `Int.tmod` follows the dividend). -/
theorem tmod_gt_neg (a : ℤ) {b : ℤ} (hb : 0 < b) : -b < Int.tmod a b := by
  obtain ⟨n, rfl⟩ := Int.eq_ofNat_of_zero_le (le_of_lt hb)
  have hn : 0 < n := by exact_mod_cast hb
  cases a with
  | ofNat m =>
    have h1 : (0 : ℤ) ≤ Int.ofNat m := Int.natCast_nonneg m
    have h2 := Int.tmod_nonneg (n : ℤ) h1
    omega
  | negSucc m =>
    have hred : Int.tmod (Int.negSucc m) ((n : ℕ) : ℤ) = -(((m + 1) % n : ℕ) : ℤ) := rfl
    rw [hred]
    have hlt : (m + 1) % n < n := Nat.mod_lt _ hn
    omega

/-- Bounds of one generator step: the new hash always lies strictly
between -233280 and 233280. -/
theorem nextHash_bounds (h : ℤ) : -233280 < nextHash h ∧ nextHash h < 233280 :=
  ⟨tmod_gt_neg _ (by norm_num), Int.tmod_lt_of_pos _ (by norm_num)⟩

/-- From a nonnegative hash state the generator stays nonnegative. -/
theorem nextHash_nonneg {h : ℤ} (hh : 0 ≤ h) : 0 ≤ nextHash h :=
  Int.tmod_nonneg _ (by nlinarith)

/-- The emitted value of a hash strictly between the modulus bounds lies in
`(-1, 1)`. -/
theorem lcgValue_bounds {h : ℤ} (h1 : -233280 < h) (h2 : h < 233280) :
    -1 < lcgValue h ∧ lcgValue h < 1 := by
  unfold lcgValue
  have hq1 : (-233280 : ℚ) < (h : ℚ) := by exact_mod_cast h1
  have hq2 : (h : ℚ) < 233280 := by exact_mod_cast h2
  constructor
  · rw [neg_lt, ← neg_div]
    exact (div_lt_one (by norm_num)).2 (by linarith)
  · exact (div_lt_one (by norm_num)).2 hq2

/-- The emitted value of a nonnegative hash is nonnegative. -/
theorem lcgValue_nonneg {h : ℤ} (hh : 0 ≤ h) : 0 ≤ lcgValue h := by
  unfold lcgValue
  positivity

/-- C5 counterexample: the generator freshly created from the seed
`"aaaaaa"` (whose 32-bit hash is -1425372064) emits -70287/233280 as its
first value, outside `[0, 1)`. -/
theorem claim5_counterexample_negative_value :
    ¬ (0 ≤ genValue "aaaaaa" 0 ∧ genValue "aaaaaa" 0 < 1) := by
  have e : hashAfter "aaaaaa" 1 = -70287 := by decide
  have hval : genValue "aaaaaa" 0 = lcgValue (-70287) := by
    unfold genValue
    rw [e]
  rw [hval]
  unfold lcgValue
  norm_num

/-- C5 amended: every value the seeded generator emits lies in the open
interval `(-1, 1)`; a seed whose 32-bit hash is negative produces negative
values, so `[0, 1)` only holds for nonnegative seed hashes. -/
theorem claim5_generator_range (seed : String) (k : ℕ) :
    -1 < genValue seed k ∧ genValue seed k < 1 := by
  unfold genValue hashAfter
  rw [Function.iterate_succ_apply']
  obtain ⟨h1, h2⟩ := nextHash_bounds (nextHash^[k] (jsHash seed))
  exact lcgValue_bounds h1 h2

/-! ### The Fisher–Yates pass (C4) -/

/-- Length of the array window. -/
theorem window_length (n : ℕ) (f : ℤ → Option α) : (window n f).length = n := by
  unfold window
  rw [List.length_map, List.length_range]

/-- Entries of the array window. -/
theorem window_get (n : ℕ) (f : ℤ → Option α) (k : ℕ) (h : k < (window n f).length) :
    (window n f).get ⟨k, h⟩ = f (k : ℤ) := by
  unfold window
  simp only [List.get_eq_getElem, List.getElem_map, List.getElem_range]

/-- A swap index computed from a hash state in `[0, 233280)` lies between 0
and the loop index. -/
theorem swapIndex_bounds {h : ℤ} (h0 : 0 ≤ h) (hlt : h < 233280) (i : ℕ) :
    0 ≤ swapIndex h i ∧ swapIndex h i ≤ (i : ℤ) := by
  have hr0 : 0 ≤ lcgValue h := lcgValue_nonneg h0
  have hr1 : lcgValue h < 1 := (lcgValue_bounds (by linarith) hlt).2
  have hfac : (0 : ℚ) ≤ (i : ℚ) + 1 := by positivity
  constructor
  · exact Int.floor_nonneg.2 (mul_nonneg hr0 hfac)
  · have hmul : lcgValue h * ((i : ℚ) + 1) < (i : ℚ) + 1 := by nlinarith
    have hf : swapIndex h i < (i : ℤ) + 1 := by
      unfold swapIndex
      rw [Int.floor_lt]
      push_cast
      linarith
    omega

/-- Consing a selected element over the list with that position overwritten
is a permutation of consing the new value over the original list. -/
theorem cons_set_perm {β : Type} (t : List β) :
    ∀ (j : ℕ) (hj : j < t.length) (x : β), (t.get ⟨j, hj⟩ :: t.set j x).Perm (x :: t) := by
  induction t with
  | nil => intro j hj x; simp at hj
  | cons y t ih =>
    intro j hj x
    cases j with
    | zero => exact List.Perm.swap x y t
    | succ j =>
      have hj2 : j < t.length := by simpa using hj
      have hred : ((y :: t).get ⟨j + 1, hj⟩ :: (y :: t).set (j + 1) x) =
          t.get ⟨j, hj2⟩ :: y :: t.set j x := by simp
      have p1 : (t.get ⟨j, hj2⟩ :: y :: t.set j x).Perm (y :: t.get ⟨j, hj2⟩ :: t.set j x) :=
        List.Perm.swap y (t.get ⟨j, hj2⟩) (t.set j x)
      have p2 : (y :: t.get ⟨j, hj2⟩ :: t.set j x).Perm (y :: x :: t) :=
        List.Perm.cons y (ih j hj2 x)
      have p3 : (y :: x :: t).Perm (x :: y :: t) := List.Perm.swap x y t
      rw [hred]
      exact (p1.trans p2).trans p3

/-- Exchanging the entries at two positions of a list (by a pair of `set`
calls reading the original entries) is a permutation. -/
theorem set_set_perm_get {β : Type} (L : List β) :
    ∀ (i j : ℕ) (hi : i < L.length) (hj : j < L.length),
      ((L.set i (L.get ⟨j, hj⟩)).set j (L.get ⟨i, hi⟩)).Perm L := by
  induction L with
  | nil => intro i j hi _; simp at hi
  | cons y t ih =>
    intro i j hi hj
    cases i with
    | zero =>
      cases j with
      | zero => simp
      | succ j =>
        have hj2 : j < t.length := by simpa using hj
        have hred : (((y :: t).set 0 ((y :: t).get ⟨j + 1, hj⟩)).set (j + 1)
            ((y :: t).get ⟨0, hi⟩)) = t.get ⟨j, hj2⟩ :: t.set j y := by simp
        rw [hred]
        exact cons_set_perm t j hj2 y
    | succ i =>
      cases j with
      | zero =>
        have hi2 : i < t.length := by simpa using hi
        have hred : (((y :: t).set (i + 1) ((y :: t).get ⟨0, hj⟩)).set 0
            ((y :: t).get ⟨i + 1, hi⟩)) = t.get ⟨i, hi2⟩ :: t.set i y := by simp
        rw [hred]
        exact cons_set_perm t i hi2 y
      | succ j =>
        have hi2 : i < t.length := by simpa using hi
        have hj2 : j < t.length := by simpa using hj
        have hred : (((y :: t).set (i + 1) ((y :: t).get ⟨j + 1, hj⟩)).set (j + 1)
            ((y :: t).get ⟨i + 1, hi⟩)) =
            y :: ((t.set i (t.get ⟨j, hj2⟩)).set j (t.get ⟨i, hi2⟩)) := by simp
        rw [hred]
        exact List.Perm.cons y (ih i j hi2 hj2)

/-- The window of a swapped store is the window of the store with the two
positions exchanged by `set`. -/
theorem window_jsSwap (n : ℕ) (f : ℤ → Option α) (i j : ℤ) (hi0 : 0 ≤ i) (hin : i < (n : ℤ))
    (hj0 : 0 ≤ j) (hjn : j < (n : ℤ)) :
    window n (jsSwap f i j) = ((window n f).set i.toNat (f j)).set j.toNat (f i) := by
  apply List.ext_get
  · simp [window]
  · intro k h1 h2
    have hk : k < n := by
      have := h1
      rw [window_length] at this
      exact this
    simp only [window, jsSwap, List.get_eq_getElem, List.getElem_set, List.getElem_map,
      List.getElem_range]
    by_cases h3 : (k : ℤ) = i
    · have e3 : i.toNat = k := by omega
      by_cases h4 : (k : ℤ) = j
      · have e4 : j.toNat = k := by omega
        have hij : i = j := by omega
        simp [h3, h4, e3, e4, hij]
      · have e4 : ¬ j.toNat = k := by omega
        simp [h3, h4, e3, e4]
    · have e3 : ¬ i.toNat = k := by omega
      by_cases h4 : (k : ℤ) = j
      · have e4 : j.toNat = k := by omega
        simp [h3, h4, e3, e4]
        intro h5
        rw [h5]
      · have e4 : ¬ j.toNat = k := by omega
        simp [h3, h4, e3, e4]

/-- Swapping two in-range positions permutes the window. -/
theorem window_jsSwap_perm (n : ℕ) (f : ℤ → Option α) (i j : ℤ) (hi0 : 0 ≤ i)
    (hin : i < (n : ℤ)) (hj0 : 0 ≤ j) (hjn : j < (n : ℤ)) :
    (window n (jsSwap f i j)).Perm (window n f) := by
  rw [window_jsSwap n f i j hi0 hin hj0 hjn]
  have hi2 : i.toNat < (window n f).length := by rw [window_length]; omega
  have hj2 : j.toNat < (window n f).length := by rw [window_length]; omega
  have egj : f j = (window n f).get ⟨j.toNat, hj2⟩ := by
    rw [window_get]
    congr 1
    omega
  have egi : f i = (window n f).get ⟨i.toNat, hi2⟩ := by
    rw [window_get]
    congr 1
    omega
  rw [egi, egj]
  exact set_set_perm_get (window n f) i.toNat j.toNat hi2 hj2

/-- As long as the generator state stays nonnegative and the loop counter
stays below the array length, the Fisher–Yates loop permutes the window. -/
theorem shuffleLoop_perm (n : ℕ) :
    ∀ (m : ℕ) (f : ℤ → Option α) (h : ℤ), 0 ≤ h → m < n →
      (window n (shuffleLoop m f h).1).Perm (window n f) := by
  intro m
  induction m with
  | zero => intro f h _ _; exact List.Perm.refl _
  | succ m ih =>
    intro f h hh hmn
    have h20 : 0 ≤ nextHash h := nextHash_nonneg hh
    have h2lt : nextHash h < 233280 := (nextHash_bounds h).2
    obtain ⟨hj0, hji⟩ := swapIndex_bounds h20 h2lt (m + 1)
    have hstep : shuffleLoop (m + 1) f h =
        shuffleLoop m (jsSwap f ((m + 1 : ℕ) : ℤ) (swapIndex (nextHash h) (m + 1)))
          (nextHash h) := rfl
    rw [hstep]
    have hperm1 := ih (jsSwap f ((m + 1 : ℕ) : ℤ) (swapIndex (nextHash h) (m + 1)))
      (nextHash h) h20 (by omega)
    have hperm2 := window_jsSwap_perm n f ((m + 1 : ℕ) : ℤ) (swapIndex (nextHash h) (m + 1))
      (by positivity) (by exact_mod_cast hmn) hj0 (by
        have hcast : ((m + 1 : ℕ) : ℤ) < (n : ℤ) := by exact_mod_cast hmn
        omega)
    exact hperm1.trans hperm2

/-- The initial window is the original array with all slots present. -/
theorem window_initStore (l : List α) : window l.length (initStore l) = l.map some := by
  apply List.ext_get
  · rw [window_length, List.length_map]
  · intro k h1 h2
    have hk : k < l.length := by
      have := h1
      rw [window_length] at this
      exact this
    rw [window_get]
    simp only [initStore, List.get_eq_getElem, List.getElem_map]
    rw [if_pos (Int.natCast_nonneg k), Int.toNat_natCast, List.get?_eq_get hk]
    rfl

/-- C4 counterexample: with the seed `"aaaaaa"` (negative 32-bit hash) the
shuffle of `[0, 1, 2]` is not a permutation of the input — the generator
emits negative values, both swap indices are -1, and the element 1 is
replaced by `undefined` while 2 survives via the stashed property at
index -1. -/
theorem claim4_counterexample_not_permutation :
    ¬ (runShuffle "aaaaaa" ([0, 1, 2] : List ℤ)).Perm (([0, 1, 2] : List ℤ).map some) := by
  have e0 : jsHash "aaaaaa" = -1425372064 := by decide
  have e1 : nextHash (-1425372064) = -70287 := by decide
  have e2 : nextHash (-70287) = -39530 := by decide
  have s1 : swapIndex (-70287) 2 = -1 := by
    unfold swapIndex lcgValue
    norm_num
  have s2 : swapIndex (-39530) 1 = -1 := by
    unfold swapIndex lcgValue
    norm_num
  have hrun : runShuffle "aaaaaa" ([0, 1, 2] : List ℤ) = [some 0, some 2, none] := by
    have hl : runShuffle "aaaaaa" ([0, 1, 2] : List ℤ) =
        window 3 (shuffleLoop 2 (initStore ([0, 1, 2] : List ℤ)) (jsHash "aaaaaa")).1 := rfl
    rw [hl, e0]
    have hstep1 : shuffleLoop 2 (initStore ([0, 1, 2] : List ℤ)) (-1425372064 : ℤ) =
        shuffleLoop 1
          (jsSwap (initStore ([0, 1, 2] : List ℤ)) 2 (swapIndex (nextHash (-1425372064)) 2))
          (nextHash (-1425372064)) := rfl
    rw [hstep1, e1, s1]
    have hstep2 : shuffleLoop 1 (jsSwap (initStore ([0, 1, 2] : List ℤ)) 2 (-1))
          (-70287 : ℤ) =
        shuffleLoop 0
          (jsSwap (jsSwap (initStore ([0, 1, 2] : List ℤ)) 2 (-1)) 1
            (swapIndex (nextHash (-70287)) 1))
          (nextHash (-70287)) := rfl
    rw [hstep2, e2, s2]
    rfl
  rw [hrun]
  decide

/-- C4 amended: whenever the 32-bit hash of the seed is nonnegative (so
every generated swap index is in range), the shuffle returns a list of the
same length that is a permutation of the input with every slot present;
for seeds with a negative hash this can fail. -/
theorem claim4_shuffle_permutation {α : Type} (l : List α) (seed : String)
    (hseed : 0 ≤ jsHash seed) :
    (runShuffle seed l).length = l.length ∧ (runShuffle seed l).Perm (l.map some) := by
  have hlen : (runShuffle seed l).length = l.length := window_length l.length _
  refine ⟨hlen, ?_⟩
  show (window l.length (shuffleLoop (l.length - 1) (initStore l) (jsHash seed)).1).Perm
    (l.map some)
  rw [← window_initStore l]
  rcases Nat.eq_zero_or_pos l.length with h0 | h0
  · rw [h0]
    exact List.Perm.refl _
  · exact shuffleLoop_perm l.length (l.length - 1) (initStore l) (jsHash seed) hseed (by omega)

/-- C4 witness: seed `"a"` has hash 97 and permutes `[0, 1, 2]` with every
element present exactly once. -/
theorem claim4_shuffle_permutation_witness :
    (runShuffle "a" ([0, 1, 2] : List ℤ)).length = 3 ∧
      (runShuffle "a" ([0, 1, 2] : List ℤ)).Perm (([0, 1, 2] : List ℤ).map some) := by
  obtain ⟨h1, h2⟩ := claim4_shuffle_permutation ([0, 1, 2] : List ℤ) "a" (by decide)
  refine ⟨?_, h2⟩
  rw [h1]
  rfl

/-! ### Sanitised view reveals no correctness flags or explanations (C9) -/

/-- The presentation projection of an answer row does not depend on its
`isCorrect` flag or its explanation. -/
theorem sanitizeAnswer_agree {a b : QuizAnswerRow} (h : AgreeAnswer a b) :
    sanitizeAnswer a = sanitizeAnswer b := by
  obtain ⟨h1, h2⟩ := h
  unfold sanitizeAnswer
  rw [h1, h2]

/-- Mapping the answer projection over two lists agreeing up to secrets
yields equal lists. -/
theorem map_sanitizeAnswer_agree : ∀ {l₁ l₂ : List QuizAnswerRow},
    List.Forall₂ AgreeAnswer l₁ l₂ → l₁.map sanitizeAnswer = l₂.map sanitizeAnswer := by
  intro l₁ l₂ h
  induction h with
  | nil => rfl
  | cons hab _ ih =>
    simp only [List.map_cons]
    rw [sanitizeAnswer_agree hab, ih]

/-- The presentation projection of a question row does not depend on its
explanation or on its answers' secrets. -/
theorem sanitizeQuestion_agree {a b : QuizQuestionRow} (h : AgreeQuestion a b) :
    sanitizeQuestion a = sanitizeQuestion b := by
  obtain ⟨h1, h2, h3, h4, h5, h6⟩ := h
  unfold sanitizeQuestion
  rw [h1, h2, h3, h4, h5, map_sanitizeAnswer_agree h6]

/-- Mapping the question projection over two lists agreeing up to secrets
yields equal lists. -/
theorem map_sanitizeQuestion_agree : ∀ {l₁ l₂ : List QuizQuestionRow},
    List.Forall₂ AgreeQuestion l₁ l₂ → l₁.map sanitizeQuestion = l₂.map sanitizeQuestion := by
  intro l₁ l₂ h
  induction h with
  | nil => rfl
  | cons hab _ ih =>
    simp only [List.map_cons]
    rw [sanitizeQuestion_agree hab, ih]

/-- C9: the assembled quiz view is identical for two quizzes that differ
only in their answers' correctness flags and their questions' and answers'
explanations, for every requester, seed and option combination — the view
structurally carries only answer ids and texts and cannot leak the
secrets. -/
theorem claim9_view_no_secrets (p q : QuizRow) (hagree : AgreeQuiz p q)
    (userId ip userSeed : Option String) (idStr : String) (randomize : Bool)
    (qc : Option ℤ) (sa : Bool) :
    assembleQuiz p userId ip userSeed idStr randomize qc sa =
      assembleQuiz q userId ip userSeed idStr randomize qc sa := by
  obtain ⟨h1, h2, h3, h4, h5, h6⟩ := hagree
  have hload : loadQuestions p = loadQuestions q := by
    unfold loadQuestions
    rw [map_sanitizeQuestion_agree h6]
  unfold assembleQuiz
  rw [hload, h1, h2, h3, h4, h5]

/-- C9 witness: a quiz and its copy with flipped correctness flags and
changed explanations assemble to the same randomised one-question view. -/
theorem claim9_view_no_secrets_witness :
    assembleQuiz exSecretQuizA none none none "9" true (some 1) true =
      assembleQuiz exSecretQuizB none none none "9" true (some 1) true :=
  claim9_view_no_secrets exSecretQuizA exSecretQuizB
    (by
      refine ⟨rfl, rfl, rfl, rfl, rfl, ?_⟩
      refine List.Forall₂.cons ⟨rfl, rfl, rfl, rfl, rfl, ?_⟩ List.Forall₂.nil
      exact List.Forall₂.cons ⟨rfl, rfl⟩ (List.Forall₂.cons ⟨rfl, rfl⟩ List.Forall₂.nil))
    none none none "9" true (some 1) true

end TargetJee


